import Mathlib

/-!
# Verification of the AIRBNB_access access-decision core

Shallow embedding of the guest/luggage access-control decision engine of the
repository (files `ocr.py`, `blueprints/guard.py`, `blueprints/luggage.py`,
`models.py`) together with proofs settling the frozen claims C1..C10.

Modelling conventions:
* Python strings that flow through the identity normalizer are `List Char`;
  opaque strings (names, status values, messages) are `String`.
* `DATETIME` timestamps are `Int` (an abstract count of minutes); the only
  operations the code performs on them are order comparisons, which the
  integers model exactly.  `datetime.now(pytz.timezone('Africa/Nairobi'))
  .replace(tzinfo=None)` is modelled as `utc + 180` (Nairobi is a fixed
  UTC+3 zone with no daylight saving), `datetime.utcnow()` as `utc` itself.
* The database session is an explicit record of lists; each route handler is
  a function from the request parameters and the database to a response and
  an updated database.  Routes that can raise (`None.attribute` accesses on
  a missing `Room`/`Property` row) return `Option`.
* The Flask role checks (`_guard_only`, `_host_only`) are request
  authentication outside the decision core (spec §6 requires the decision
  logic to be independent of them); they are not modelled.
-/

/-! ## Identity normalizer (`ocr.py`) -/

/-- The confusable-character mapping of `CONFUSABLE` in `ocr.py`
(`str.maketrans`): O/o/D→0, I/l/|/!→1, S/s→5, B→8, Z/z→2, q/g→9;
every other character is left unchanged. -/
def confusable (c : Char) : Char :=
  if c = 'O' ∨ c = 'o' ∨ c = 'D' then '0'
  else if c = 'I' ∨ c = 'l' ∨ c = '|' ∨ c = '!' then '1'
  else if c = 'S' ∨ c = 's' then '5'
  else if c = 'B' then '8'
  else if c = 'Z' ∨ c = 'z' then '2'
  else if c = 'q' ∨ c = 'g' then '9'
  else c

/-- `_norm` in `ocr.py`: `s.translate(CONFUSABLE)` maps each character
through the confusable table. -/
def normText (s : List Char) : List Char := s.map confusable

/-- Word character in the sense of the regex `\b` boundaries (`\w`):
letter, digit or underscore (the identity strings involved are ASCII). -/
def isWordChar (c : Char) : Bool := c.isAlphanum || c = '_'

/-- A `\b` word boundary holds immediately before a digit iff the preceding
character (if any) is not a word character. -/
def boundaryOk : Option Char → Bool
  | none => true
  | some c => !isWordChar c

/-- A `\b` word boundary holds immediately after a digit iff the following
text (if any) does not start with a word character. -/
def headBoundary : List Char → Bool
  | [] => true
  | c :: _ => !isWordChar c

/-- One attempt of the regex `\b\d{8}\b` (`RX_EXACT8`) anchored at the
current position: `prev` is the character just before the position. -/
def tryExact8 (prev : Option Char) (s : List Char) : Option (List Char) :=
  if boundaryOk prev && decide (8 ≤ s.length) && (s.take 8).all Char.isDigit
      && headBoundary (s.drop 8)
  then some (s.take 8) else none

/-- One attempt of `\d{k}` followed by a trailing `\b`, anchored at the
current position. -/
def tryRunK (k : Nat) (s : List Char) : Option (List Char) :=
  if decide (k ≤ s.length) && (s.take k).all Char.isDigit
      && headBoundary (s.drop k)
  then some (s.take k) else none

/-- One attempt of the regex `\b\d{7,9}\b` (`RX_RUN`) anchored at the
current position; the greedy quantifier tries 9, then 8, then 7 digits. -/
def tryRun79 (prev : Option Char) (s : List Char) : Option (List Char) :=
  if boundaryOk prev then
    match tryRunK 9 s with
    | some d => some d
    | none =>
      match tryRunK 8 s with
      | some d => some d
      | none => tryRunK 7 s
  else none

/-- `re.search` semantics: try the anchored match at each position from the
left, remembering the character preceding the position, and return the first
success.  (No anchored attempt of either pattern can succeed on the empty
remainder, as both require at least seven characters.) -/
def searchAux (f : Option Char → List Char → Option (List Char)) :
    Option Char → List Char → Option (List Char)
  | _, [] => none
  | prev, c :: rest =>
    match f prev (c :: rest) with
    | some d => some d
    | none => searchAux f (some c) rest

/-- `_pick_id` in `ocr.py`: prefer the first `\b\d{8}\b` match, fall back to
the first `\b\d{7,9}\b` match, otherwise `None`. -/
def pickId (s : List Char) : Option (List Char) :=
  match searchAux tryExact8 none s with
  | some d => some d
  | none => searchAux tryRun79 none s

/-- The Identity Normalizer contract of spec §4.1 as composed in
`extract_id_text` (`ocr.py` lines 43-44): confusable folding via `_norm`,
then digit-run extraction via `_pick_id`. -/
def normalizeId (raw : List Char) : Option (List Char) := pickId (normText raw)

/-- The character just before the position that splits `prev ++ pre ++ rest`
after `pre`: the last of `pre` if any, else `prev`. -/
def prevOf (prev : Option Char) (pre : List Char) : Option Char :=
  match pre.getLast? with
  | some c => some c
  | none => prev

/-- Spec-side reading of a `\b\d{8}\b` occurrence: at offset `pre.length`
the text contains a run `d` of exactly 8 digits whose neighbours (the last
character of `pre` and the first of `post`, when they exist) are not word
characters. -/
def isExact8Split (s pre d : List Char) : Prop :=
  ∃ post, s = pre ++ (d ++ post) ∧ d.length = 8 ∧
    (∀ c ∈ d, c.isDigit = true) ∧
    (∀ c, pre.getLast? = some c → isWordChar c = false) ∧
    (∀ c, post.head? = some c → isWordChar c = false)

/-- Spec-side reading of a `\b\d{7,9}\b` occurrence. -/
def isRun79Split (s pre d : List Char) : Prop :=
  ∃ post, s = pre ++ (d ++ post) ∧
    (d.length = 7 ∨ d.length = 8 ∨ d.length = 9) ∧
    (∀ c ∈ d, c.isDigit = true) ∧
    (∀ c, pre.getLast? = some c → isWordChar c = false) ∧
    (∀ c, post.head? = some c → isWordChar c = false)


/-! ## Data model (`models.py`; `Luggage`, `LuggageScanLog` and
`Booking.qr_token` are declared outside the provided `models.py`) -/

/-- `Guest` (`models.py`): identity record; `national_id_number` is the
OCR lookup key. -/
structure Guest where
  id : Nat
  full_name : String
  national_id_number : List Char
deriving DecidableEq, Repr

/-- `Booking` (`models.py`).  `qr_token` is nullable until generated.
Modelled from the spec: the `qr_token` column itself is added to the model
outside the provided `models.py` (its writers are in
`blueprints/bookings.py`); spec §3 describes it as an opaque unique
nullable string. -/
structure Booking where
  id : Nat
  guest_id : Nat
  room_id : Nat
  check_in : Int
  check_out : Int
  status : String
  qr_token : Option (List Char)
  guests_count : Nat
  owns_vehicle : Bool
  vehicle_plate : Option String
deriving DecidableEq, Repr

/-- `Room` (`models.py`). -/
structure Room where
  id : Nat
  property_id : Nat
  name : String
deriving DecidableEq, Repr

/-- `Property` (`models.py`). -/
structure Property where
  id : Nat
  name : String
deriving DecidableEq, Repr

/-- `AccessLog` (`models.py`): one immutable row per person/booking scan
attempt. -/
structure AccessLog where
  guard_id : Nat
  checkpoint_id : Nat
  guest_id : Option Nat
  booking_id : Option Nat
  national_id_number : Option (List Char)
  decision : String
  image_path : Option String
  ocr_text : Option String
deriving DecidableEq, Repr

/-- `Luggage`.  Modelled from the spec: the column declarations live outside
the provided `models.py`; spec §3 and the constructor call in
`blueprints/luggage.py` lines 159-166 give the fields (booking reference,
label, size, optional photo path, unique QR token, status in
pending/blocked/exited). -/
structure Luggage where
  id : Nat
  booking_id : Nat
  label : String
  size : String
  photo_path : Option String
  qr_token : List Char
  status : String
deriving DecidableEq, Repr

/-- `LuggageScanLog`.  Modelled from the spec: declared outside the provided
`models.py`; spec §3 and the constructor calls in `blueprints/luggage.py`
give the fields. -/
structure LuggageScanLog where
  guard_id : Nat
  checkpoint_id : Nat
  luggage_id : Nat
  decision : String
  note : String
deriving DecidableEq, Repr

/-- The relational store seen by the scan routes: one list per table.
Log tables are append-only lists. -/
structure Db where
  guests : List Guest
  bookings : List Booking
  rooms : List Room
  properties : List Property
  luggage : List Luggage
  accessLogs : List AccessLog
  luggageScanLogs : List LuggageScanLog
deriving DecidableEq, Repr

/-! ## Shared request plumbing -/

/-- Python `str.strip()`: remove leading and trailing whitespace. -/
def pyStrip (s : List Char) : List Char :=
  ((s.dropWhile Char.isWhitespace).reverse.dropWhile Char.isWhitespace).reverse

/-- `datetime.now(pytz.timezone('Africa/Nairobi')).replace(tzinfo=None)` in
`scan_post`: the naive Nairobi wall clock is the UTC instant shifted by the
fixed +3h offset (Kenya has no daylight saving); timestamps count minutes. -/
def nairobiOfUtc (utc : Int) : Int := utc + 180

/-! ## Person scan and booking-QR scan (`blueprints/guard.py`) -/

/-- The active-booking filter of the person-scan query (`guard.py` lines
54-58): `check_in <= now`, `check_out >= now`, `status != "cancelled"`,
in the source's order. -/
def personActiveCheck (b : Booking) (now : Int) : Bool :=
  decide (b.check_in ≤ now) && decide (b.check_out ≥ now)
    && !(b.status == "cancelled")

/-- The active-booking test of the booking-QR path (`guard.py` line 148):
`booking.status != "cancelled" and (booking.check_in <= now <=
booking.check_out)`. -/
def bookingQrActiveCheck (b : Booking) (now : Int) : Bool :=
  !(b.status == "cancelled")
    && (decide (b.check_in ≤ now) && decide (now ≤ b.check_out))

/-- `.order_by(Booking.check_out.desc()).first()`: the first listed booking
whose `check_out` is maximal (later rows replace the current best only when
strictly later). -/
def pickLatestCheckout : List Booking → Option Booking
  | [] => none
  | b :: rest =>
    match pickLatestCheckout rest with
    | none => some b
    | some b' => if b.check_out < b'.check_out then some b' else some b

/-- The person-scan booking query (`guard.py` lines 52-62) for a resolved
guest id: filter the bookings table, take the qualifying row with the
latest `check_out`. -/
def activeBookingsFor (db : Db) (gid : Nat) (now : Int) : List Booking :=
  db.bookings.filter (fun b => (b.guest_id == gid) && personActiveCheck b now)

/-- The Booking Window Matcher (spec §4.2) as the person-scan route embeds
it: resolve the identity to the first guest whose `national_id_number`
matches exactly, then run the booking query. -/
def findActiveBooking (db : Db) (nid : List Char) (now : Int) : Option Booking :=
  (db.guests.find? (fun g => g.national_id_number == nid)).bind
    (fun g => pickLatestCheckout (activeBookingsFor db g.id now))

/-- Info payload of an allow/deny response carrying booking details
(`guard.py` lines 83-94 and 167-178 build the same ten fields). -/
structure BookingInfo where
  guest_name : String
  national_id : List Char
  property : String
  room : String
  check_in : Int
  check_out : Int
  booking_id : Nat
  guests_count : Nat
  owns_vehicle : Bool
  vehicle_plate : Option String
deriving DecidableEq, Repr

/-- JSON response shape of the person and booking-QR scan endpoints. -/
structure GuardResp where
  ok : Bool
  decision : String
  reason : Option String
  message : Option String
  info : Option BookingInfo
deriving DecidableEq, Repr

/-- Continuation of `scan_post` after the guest and booking lookups
(`guard.py` lines 50-103): decide, append the audit row, build the
response.  `guest`/`booking` are the values of the two queries. -/
def scanPostTail (db : Db) (guardId checkpointId : Nat)
    (national_id : List Char) (guest : Option Guest)
    (booking : Option Booking) : Option (GuardResp × Db) :=
  let decision := if booking.isSome then "allow" else "deny"
  let log : AccessLog :=
    { guard_id := guardId, checkpoint_id := checkpointId,
      guest_id := guest.map (fun g => g.id),
      booking_id := booking.map (fun b => b.id),
      national_id_number := some national_id,
      decision := decision, image_path := none,
      ocr_text := some "[client_or_manual]" }
  let db' := { db with accessLogs := db.accessLogs ++ [log] }
  match booking, guest with
  | some b, some g =>
    (db.rooms.find? (fun r => r.id == b.room_id)).bind (fun room =>
      (db.properties.find? (fun p => p.id == room.property_id)).bind
        (fun prop =>
          some ({ ok := true, decision := "allow", reason := none,
                  message := none,
                  info := some
                    { guest_name := g.full_name,
                      national_id := g.national_id_number,
                      property := prop.name, room := room.name,
                      check_in := b.check_in, check_out := b.check_out,
                      booking_id := b.id, guests_count := b.guests_count,
                      owns_vehicle := b.owns_vehicle,
                      vehicle_plate := b.vehicle_plate } }, db')))
  | _, _ =>
    some ({ ok := true, decision := "deny",
            reason := some "no_active_booking",
            message := some "No active booking for this ID at the current time.",
            info := none }, db')

/-- `scan_post` (`guard.py` lines 26-103), the person-scan endpoint.
`detectedId` is the `detected_id` form field (client OCR or manual entry);
`utcNow` the UTC instant of the request.  Returns `none` where the handler
would raise (missing `Room`/`Property` row on the allow path). -/
def scan_post (db : Db) (guardId checkpointId : Nat) (detectedId : List Char)
    (utcNow : Int) : Option (GuardResp × Db) :=
  let national_id := pyStrip detectedId
  if national_id.isEmpty then
    some ({ ok := true, decision := "deny", reason := some "no_id",
            message := some "No ID number provided.", info := none }, db)
  else
    let now := nairobiOfUtc utcNow
    let guest := db.guests.find? (fun g => g.national_id_number == national_id)
    let booking := guest.bind
      (fun g => pickLatestCheckout (activeBookingsFor db g.id now))
    scanPostTail db guardId checkpointId national_id guest booking

/-- Continuation of `booking_scan_post` after the token lookup
(`guard.py` lines 130-179).  `found` is the result of the
`filter_by(qr_token=token)` query. -/
def bookingScanPostTail (db : Db) (guardId checkpointId : Nat)
    (utcNow : Int) (found : Option Booking) : Option (GuardResp × Db) :=
  match found with
  | none =>
    let log : AccessLog :=
      { guard_id := guardId, checkpoint_id := checkpointId,
        guest_id := none, booking_id := none, national_id_number := none,
        decision := "deny", image_path := none,
        ocr_text := some "[booking_qr_not_found]" }
    some ({ ok := true, decision := "deny", reason := none,
            message := some "QR not recognized.", info := none },
          { db with accessLogs := db.accessLogs ++ [log] })
  | some booking =>
    let now := utcNow
    let decision := if bookingQrActiveCheck booking now then "allow" else "deny"
    let guest := db.guests.find? (fun g => g.id == booking.guest_id)
    (db.rooms.find? (fun r => r.id == booking.room_id)).bind (fun room =>
      let prop := db.properties.find? (fun p => p.id == room.property_id)
      let log : AccessLog :=
        { guard_id := guardId, checkpoint_id := checkpointId,
          guest_id := guest.map (fun g => g.id),
          booking_id := some booking.id,
          national_id_number := guest.map (fun g => g.national_id_number),
          decision := decision, image_path := none,
          ocr_text := some "[booking_qr]" }
      let db' := { db with accessLogs := db.accessLogs ++ [log] }
      let info : BookingInfo :=
        { guest_name := match guest with
            | some g => g.full_name
            | none => "",
          national_id := match guest with
            | some g => g.national_id_number
            | none => [],
          property := match prop with
            | some p => p.name
            | none => "",
          room := room.name,
          check_in := booking.check_in, check_out := booking.check_out,
          booking_id := booking.id, guests_count := booking.guests_count,
          owns_vehicle := booking.owns_vehicle,
          vehicle_plate := booking.vehicle_plate }
      some ({ ok := true, decision := decision, reason := none,
              message := none, info := some info }, db'))

/-- `booking_scan_post` (`guard.py` lines 117-179), the booking-QR
endpoint.  Returns `none` where the handler would raise (missing `Room`
row: `room.property_id` is accessed unguarded). -/
def booking_scan_post (db : Db) (guardId checkpointId : Nat)
    (qrToken : List Char) (utcNow : Int) : Option (GuardResp × Db) :=
  let token := pyStrip qrToken
  if token.isEmpty then
    some ({ ok := true, decision := "deny", reason := some "no_qr",
            message := some "No QR token provided.", info := none }, db)
  else
    bookingScanPostTail db guardId checkpointId utcNow
      (db.bookings.find? (fun b => b.qr_token == some token))

/-! ## Luggage state machine and guard luggage scan (`blueprints/luggage.py`) -/

/-- The five-table inner join of `guard_scan_post` (`luggage.py` lines
263-271) restricted to one luggage row: the row is present in the join iff
its whole foreign-key chain resolves. -/
def joinRow (db : Db) (l : Luggage) :
    Option (Luggage × Booking × Room × Guest × Property) :=
  (db.bookings.find? (fun b => b.id == l.booking_id)).bind (fun b =>
    (db.rooms.find? (fun r => r.id == b.room_id)).bind (fun r =>
      (db.guests.find? (fun g => g.id == b.guest_id)).bind (fun g =>
        (db.properties.find? (fun p => p.id == r.property_id)).map (fun p =>
          (l, b, r, g, p)))))

/-- `.filter(Luggage.qr_token == token).first()` over the join: the first
luggage row carrying the token whose join chain resolves. -/
def lugJoin (db : Db) (token : List Char) :
    Option (Luggage × Booking × Room × Guest × Property) :=
  (db.luggage.filter (fun l => l.qr_token == token)).findSome? (joinRow db)

/-- Info payload of the luggage scan response (`luggage.py` lines
309-321). -/
structure LuggageInfo where
  luggage_id : Nat
  label : String
  size : String
  photo : Option String
  status : String
  booking_id : Nat
  guest_name : String
  room : String
  property : String
  check_in : Int
  check_out : Int
deriving DecidableEq, Repr

/-- JSON response shape of the luggage scan endpoint. -/
structure LuggageResp where
  ok : Bool
  decision : String
  reason : Option String
  message : Option String
  info : Option LuggageInfo
deriving DecidableEq, Repr

/-- `guard_scan_post` (`luggage.py` lines 246-322), the luggage-QR
endpoint.  On an allow verdict the luggage row is set to `exited` before
the info payload is built (the handler mutates the very object the payload
reads). -/
def guard_scan_post (db : Db) (guardId checkpointId : Nat)
    (qrToken : List Char) : LuggageResp × Db :=
  let token := pyStrip qrToken
  if token.isEmpty then
    ({ ok := true, decision := "deny", reason := some "no_qr",
       message := some "No QR token detected.", info := none }, db)
  else
    match lugJoin db token with
    | none =>
      let log : LuggageScanLog :=
        { guard_id := guardId, checkpoint_id := checkpointId,
          luggage_id := 0, decision := "deny", note := "QR not found" }
      ({ ok := true, decision := "deny", reason := none,
         message := some "QR not recognized.", info := none },
       { db with luggageScanLogs := db.luggageScanLogs ++ [log] })
    | some (lug, booking, room, guest, prop) =>
      let dm : String × String :=
        if lug.status == "exited" then ("deny", "Already exited.")
        else if lug.status == "blocked" then ("deny", "Blocked item.")
        else ("allow", "Authorized to exit.")
      let decision := dm.1
      let message := dm.2
      let log : LuggageScanLog :=
        { guard_id := guardId, checkpoint_id := checkpointId,
          luggage_id := lug.id, decision := decision, note := message }
      let lug' := if decision == "allow" then { lug with status := "exited" } else lug
      let db' :=
        { db with
          luggageScanLogs := db.luggageScanLogs ++ [log],
          luggage :=
            if decision == "allow" then
              db.luggage.map
                (fun l => if l.id == lug.id then { l with status := "exited" } else l)
            else db.luggage }
      let info : LuggageInfo :=
        { luggage_id := lug'.id, label := lug'.label, size := lug'.size,
          photo := lug'.photo_path, status := lug'.status,
          booking_id := booking.id, guest_name := guest.full_name,
          room := room.name, property := prop.name,
          check_in := booking.check_in, check_out := booking.check_out }
      ({ ok := true, decision := decision, reason := none, message := none,
         info := some info }, db')

/-- `block` (`luggage.py` lines 174-185): `get_or_404` the luggage row,
then set its status to `"blocked"` unconditionally.  `none` models the 404
on a missing row. -/
def blockLuggage (db : Db) (lugId : Nat) : Option Db :=
  (db.luggage.find? (fun l => l.id == lugId)).map (fun _ =>
    { db with
      luggage := db.luggage.map
        (fun l => if l.id == lugId then { l with status := "blocked" } else l) })

/-- `unblock` (`luggage.py` lines 188-200): `get_or_404` the luggage row,
then `status = "pending" if status != "exited" else "exited"`. -/
def unblockLuggage (db : Db) (lugId : Nat) : Option Db :=
  (db.luggage.find? (fun l => l.id == lugId)).map (fun _ =>
    { db with
      luggage := db.luggage.map
        (fun l =>
          if l.id == lugId then
            { l with status := if l.status != "exited" then "pending" else "exited" }
          else l) })

/-! ## Concrete fixtures used by counterexamples and witnesses -/

/-- A guest whose stored identity number is the digit string 10345678. -/
def guestA : Guest :=
  { id := 1, full_name := "Alice", national_id_number := "10345678".toList }

/-- The room referenced by the fixture bookings. -/
def roomA : Room := { id := 1, property_id := 1, name := "Seaview" }

/-- The property referenced by the fixture room. -/
def propA : Property := { id := 1, name := "Palms" }

/-- A non-cancelled booking for `guestA` covering a wide stay window, with
QR token `tok1`. -/
def bookingA : Booking :=
  { id := 1, guest_id := 1, room_id := 1, check_in := 0, check_out := 100000,
    status := "booked", qr_token := some ("tok1".toList), guests_count := 2,
    owns_vehicle := false, vehicle_plate := none }

/-- A booking whose stay window is the half-open-feeling interval
[1000, 1100]: at UTC instant 900 the Nairobi wall clock (1080) is inside
the window while the UTC clock is not. -/
def bookingB : Booking :=
  { id := 2, guest_id := 1, room_id := 1, check_in := 1000, check_out := 1100,
    status := "booked", qr_token := some ("tok2".toList), guests_count := 1,
    owns_vehicle := false, vehicle_plate := none }

/-- Store with `guestA` and the wide booking `bookingA`. -/
def dbA : Db :=
  { guests := [guestA], bookings := [bookingA], rooms := [roomA],
    properties := [propA], luggage := [], accessLogs := [],
    luggageScanLogs := [] }

/-- Store with `guestA` and only the narrow booking `bookingB`. -/
def dbB : Db :=
  { guests := [guestA], bookings := [bookingB], rooms := [roomA],
    properties := [propA], luggage := [], accessLogs := [],
    luggageScanLogs := [] }

/-- An entirely empty store. -/
def dbEmpty : Db :=
  { guests := [], bookings := [], rooms := [], properties := [],
    luggage := [], accessLogs := [], luggageScanLogs := [] }

/-- A pending luggage item attached to `bookingA`, QR token `lug1`. -/
def lugPending : Luggage :=
  { id := 1, booking_id := 1, label := "Red case", size := "medium",
    photo_path := none, qr_token := "lug1".toList, status := "pending" }

/-- The same luggage item already exited. -/
def lugExited : Luggage := { lugPending with status := "exited" }

/-- Store holding the pending fixture luggage with a full join chain. -/
def dbLugPending : Db := { dbA with luggage := [lugPending] }

/-- Store holding the exited fixture luggage with a full join chain. -/
def dbLugExited : Db := { dbA with luggage := [lugExited] }

example :
    (scan_post dbA 1 1 ("10345678".toList) 0).map (fun p => p.1.decision)
      = some "allow" := by decide
example :
    (scan_post dbA 1 1 ("IO345678".toList) 0).map (fun p => p.1.decision)
      = some "deny" := by decide
example :
    (scan_post dbEmpty 1 1 ("".toList) 0).map (fun p => p.2.accessLogs.length)
      = some 0 := by decide
example :
    (scan_post dbB 1 1 ("10345678".toList) 900).map (fun p => p.1.decision)
      = some "allow" := by decide
example :
    (booking_scan_post dbB 1 1 ("tok2".toList) 900).map (fun p => p.1.decision)
      = some "deny" := by decide
example :
    (guard_scan_post dbLugPending 1 1 ("lug1".toList)).1.decision = "allow" := by
  decide
example :
    ((guard_scan_post dbLugPending 1 1 ("lug1".toList)).1.info.map
      (fun i => i.status)) = some "exited" := by decide
example :
    (guard_scan_post dbLugExited 1 1 ("lug1".toList)).1.decision = "deny" := by
  decide
example :
    (blockLuggage dbLugExited 1).map (fun d => d.luggage.map (fun l => l.status))
      = some ["blocked"] := by decide
example :
    (unblockLuggage dbLugExited 1).map (fun d => d.luggage.map (fun l => l.status))
      = some ["exited"] := by decide

/-! Sanity examples (concrete evaluations of the embedding). -/

example : normalizeId ("IO345g78".toList) = some ("10345978".toList) := by decide
example : normalizeId ("abc".toList) = none := by decide
example : normalizeId ("id 1234567x 87654321 ok".toList)
    = some ("87654321".toList) := by decide
example : normalizeId ("1234567".toList) = some ("1234567".toList) := by decide
example : normalizeId ("123456789012".toList) = none := by decide

/-! ## Helper lemmas on the query combinators -/

theorem pickLatestCheckout_eq_none : ∀ (L : List Booking),
    pickLatestCheckout L = none ↔ L = [] := by
  intro L
  cases L with
  | nil => simp [pickLatestCheckout]
  | cons a L =>
    simp only [pickLatestCheckout]
    constructor
    · intro h
      cases hL : pickLatestCheckout L with
      | none => rw [hL] at h; cases h
      | some b' =>
        rw [hL] at h
        dsimp only at h
        by_cases hlt : a.check_out < b'.check_out
        · rw [if_pos hlt] at h; cases h
        · rw [if_neg hlt] at h; cases h
    · intro h; cases h

theorem pickLatestCheckout_mem : ∀ (L : List Booking) (b : Booking),
    pickLatestCheckout L = some b → b ∈ L := by
  intro L
  induction L with
  | nil => intro b h; cases h
  | cons a L ih =>
    intro b h
    rw [pickLatestCheckout] at h
    cases hL : pickLatestCheckout L with
    | none =>
      rw [hL] at h
      dsimp only at h
      injection h with h
      exact h ▸ List.mem_cons_self a L
    | some b' =>
      rw [hL] at h
      dsimp only at h
      by_cases hlt : a.check_out < b'.check_out
      · rw [if_pos hlt] at h
        injection h with h
        exact h ▸ List.mem_cons_of_mem a (ih _ hL)
      · rw [if_neg hlt] at h
        injection h with h
        exact h ▸ List.mem_cons_self a L

theorem pickLatestCheckout_max : ∀ (L : List Booking) (b : Booking),
    pickLatestCheckout L = some b → ∀ b' ∈ L, b'.check_out ≤ b.check_out := by
  intro L
  induction L with
  | nil => intro b h; cases h
  | cons a L ih =>
    intro b h b' hb'
    rw [pickLatestCheckout] at h
    cases hL : pickLatestCheckout L with
    | none =>
      rw [hL] at h
      dsimp only at h
      injection h with h
      subst h
      rcases List.mem_cons.mp hb' with rfl | hb'
      · exact le_refl _
      · rw [pickLatestCheckout_eq_none] at hL
        cases hL ▸ hb'
    | some c =>
      rw [hL] at h
      dsimp only at h
      by_cases hlt : a.check_out < c.check_out
      · rw [if_pos hlt] at h
        injection h with h
        subst h
        rcases List.mem_cons.mp hb' with rfl | hb'
        · exact le_of_lt hlt
        · exact ih _ hL _ hb'
      · rw [if_neg hlt] at h
        injection h with h
        subst h
        rcases List.mem_cons.mp hb' with rfl | hb'
        · exact le_refl _
        · exact le_trans (ih _ hL _ hb') (not_lt.mp hlt)

/-- Per-element view of a luggage-table update. -/
theorem luggage_map_view (L : List Luggage) (f : Luggage → Luggage)
    (hid : ∀ l, (f l).id = l.id)
    (hst : ∀ l, l.status = "exited" → (f l).status = "exited") :
    ∀ l' ∈ L.map f, ∃ l ∈ L, l'.id = l.id ∧
      (l.status = "exited" → l'.status = "exited") := by
  intro l' hl'
  rw [List.mem_map] at hl'
  obtain ⟨l, hl, rfl⟩ := hl'
  exact ⟨l, hl, hid l, hst l⟩

/-- Trivial per-element view of an unchanged luggage table. -/
theorem luggage_id_view (L : List Luggage) :
    ∀ l' ∈ L, ∃ l ∈ L, l'.id = l.id ∧
      (l.status = "exited" → l'.status = "exited") := by
  intro l' hl'
  exact ⟨l', hl', rfl, fun h => h⟩

/-- C10: on a successful luggage-QR scan (verdict `allow`), the `status`
field of the returned info payload is the post-transition value `exited`,
because the state transition is applied before the payload is built. -/
theorem C10_allow_info_status_exited (db : Db) (g c : Nat) (tok : List Char)
    (resp : LuggageResp) (db' : Db)
    (h : guard_scan_post db g c tok = (resp, db'))
    (hallow : resp.decision = "allow") :
    ∃ i, resp.info = some i ∧ i.status = "exited" := by
  unfold guard_scan_post at h
  by_cases hemp : (pyStrip tok).isEmpty
  · rw [if_pos hemp] at h
    injection h with h1 h2
    rw [← h1] at hallow
    simp at hallow
  · rw [if_neg hemp] at h
    cases hjoin : lugJoin db (pyStrip tok) with
    | none =>
      rw [hjoin] at h
      injection h with h1 h2
      rw [← h1] at hallow
      simp at hallow
    | some q =>
      obtain ⟨lug, booking, room, guest, prop⟩ := q
      rw [hjoin] at h
      simp only at h
      by_cases hex : lug.status == "exited"
      · rw [if_pos hex] at h
        injection h with h1 h2
        rw [← h1] at hallow
        simp at hallow
      · rw [if_neg hex] at h
        by_cases hbl : lug.status == "blocked"
        · rw [if_pos hbl] at h
          injection h with h1 h2
          rw [← h1] at hallow
          simp at hallow
        · rw [if_neg hbl] at h
          simp only at h
          injection h with h1 h2
          rw [← h1]
          exact ⟨_, rfl, rfl⟩

/-- Witness for C10 at the pending fixture item. -/
theorem C10_allow_info_status_exited_witness :
    ∃ i, (guard_scan_post dbLugPending 1 1 ("lug1".toList)).1.info = some i ∧
      i.status = "exited" :=
  C10_allow_info_status_exited dbLugPending 1 1 ("lug1".toList) _ _ rfl (by decide)

/-- C5 as stated is false on the code: `block` sets the status to
`"blocked"` unconditionally, so a host block on an `exited` item moves its
status away from `exited`.  Concretely, blocking the exited fixture item
leaves the table with status `blocked`. -/
theorem C5_counterexample :
    lugExited.status = "exited" ∧ dbLugExited.luggage = [lugExited]
  ∧ (blockLuggage dbLugExited 1).map
      (fun d => d.luggage.map (fun l => l.status)) = some ["blocked"] := by
  decide

/-- C5, amended: `exited` is terminal under the guard scan and the host
unblock — in particular repeated unblock calls never change an `exited`
item's status — but the host block operation sets the status to `"blocked"`
unconditionally, including on an `exited` item. -/
theorem C5_exited_terminal_amended :
    (∀ db i db', unblockLuggage db i = some db' →
      ∀ l' ∈ db'.luggage, ∃ l ∈ db.luggage, l'.id = l.id ∧
        (l.status = "exited" → l'.status = "exited"))
  ∧ (∀ db g c tok resp db', guard_scan_post db g c tok = (resp, db') →
      ∀ l' ∈ db'.luggage, ∃ l ∈ db.luggage, l'.id = l.id ∧
        (l.status = "exited" → l'.status = "exited"))
  ∧ (∀ db i db', blockLuggage db i = some db' →
      ∀ l' ∈ db'.luggage, ∃ l ∈ db.luggage, l'.id = l.id ∧
        (l.id = i → l'.status = "blocked")) := by
  refine ⟨?_, ?_, ?_⟩
  · intro db i db' h
    rw [unblockLuggage, Option.map_eq_some'] at h
    obtain ⟨l₀, -, rfl⟩ := h
    apply luggage_map_view
    · intro l
      by_cases hli : l.id == i <;> simp [hli]
    · intro l hl
      by_cases hli : l.id == i <;> simp [hli, hl]
  · intro db g c tok resp db' h
    unfold guard_scan_post at h
    by_cases hemp : (pyStrip tok).isEmpty
    · rw [if_pos hemp] at h
      injection h with h1 h2
      rw [← h2]
      exact luggage_id_view db.luggage
    · rw [if_neg hemp] at h
      cases hjoin : lugJoin db (pyStrip tok) with
      | none =>
        rw [hjoin] at h
        injection h with h1 h2
        rw [← h2]
        exact luggage_id_view db.luggage
      | some q =>
        obtain ⟨lug, booking, room, guest, prop⟩ := q
        rw [hjoin] at h
        simp only at h
        by_cases hex : lug.status == "exited"
        · rw [if_pos hex] at h
          injection h with h1 h2
          rw [← h2]
          exact luggage_id_view db.luggage
        · rw [if_neg hex] at h
          by_cases hbl : lug.status == "blocked"
          · rw [if_pos hbl] at h
            injection h with h1 h2
            rw [← h2]
            exact luggage_id_view db.luggage
          · rw [if_neg hbl] at h
            simp only at h
            injection h with h1 h2
            rw [← h2]
            apply luggage_map_view
            · intro l
              by_cases hli : l.id == lug.id <;> simp [hli]
            · intro l hl
              by_cases hli : l.id == lug.id <;> simp [hli, hl]
  · intro db i db' h
    rw [blockLuggage, Option.map_eq_some'] at h
    obtain ⟨l₀, -, rfl⟩ := h
    intro l' hl'
    rw [List.mem_map] at hl'
    obtain ⟨l, hl, rfl⟩ := hl'
    by_cases hli : l.id == i
    · refine ⟨l, hl, by simp [hli], fun _ => by simp [hli]⟩
    · refine ⟨l, hl, by simp [hli], fun hid => ?_⟩
      exact absurd (by simp [hid]) hli

/-- Witness for the amended C5: scanning the exited fixture item leaves it
exited. -/
theorem C5_exited_terminal_amended_witness :
    ∃ l ∈ dbLugExited.luggage, lugExited.id = l.id ∧
      (l.status = "exited" → lugExited.status = "exited") :=
  C5_exited_terminal_amended.2.1 dbLugExited 1 1 ("lug1".toList) _ _ rfl
    lugExited (by decide)

/-- C4: for every luggage-QR scan with a non-empty token: an unknown token
yields deny logged against the sentinel luggage reference 0 with no luggage
state touched; a pending item yields allow and its row becomes `exited`;
a blocked item yields deny with note "Blocked item." and no state change;
an exited item yields deny with note "Already exited." and no state
change. -/
theorem C4_luggage_scan_cases (db : Db) (g c : Nat) (tok : List Char)
    (resp : LuggageResp) (db' : Db)
    (hne : (pyStrip tok).isEmpty = false)
    (h : guard_scan_post db g c tok = (resp, db')) :
    (lugJoin db (pyStrip tok) = none →
      resp.decision = "deny" ∧ resp.message = some "QR not recognized." ∧
      db'.luggage = db.luggage ∧
      db'.luggageScanLogs = db.luggageScanLogs ++
        [{ guard_id := g, checkpoint_id := c, luggage_id := 0,
           decision := "deny", note := "QR not found" }])
  ∧ (∀ lug bk rm gu pr, lugJoin db (pyStrip tok) = some (lug, bk, rm, gu, pr) →
      (lug.status = "pending" →
        resp.decision = "allow" ∧
        db'.luggage = db.luggage.map
          (fun l => if l.id == lug.id then { l with status := "exited" } else l) ∧
        db'.luggageScanLogs = db.luggageScanLogs ++
          [{ guard_id := g, checkpoint_id := c, luggage_id := lug.id,
             decision := "allow", note := "Authorized to exit." }])
      ∧ (lug.status = "blocked" →
        resp.decision = "deny" ∧ db'.luggage = db.luggage ∧
        db'.luggageScanLogs = db.luggageScanLogs ++
          [{ guard_id := g, checkpoint_id := c, luggage_id := lug.id,
             decision := "deny", note := "Blocked item." }])
      ∧ (lug.status = "exited" →
        resp.decision = "deny" ∧ db'.luggage = db.luggage ∧
        db'.luggageScanLogs = db.luggageScanLogs ++
          [{ guard_id := g, checkpoint_id := c, luggage_id := lug.id,
             decision := "deny", note := "Already exited." }])) := by
  unfold guard_scan_post at h
  rw [if_neg (by simp [hne])] at h
  cases hjoin : lugJoin db (pyStrip tok) with
  | none =>
    rw [hjoin] at h
    injection h with h1 h2
    refine ⟨fun _ => ⟨by rw [← h1], by rw [← h1], by rw [← h2], by rw [← h2]⟩, ?_⟩
    intro lug bk rm gu pr hsome
    cases hsome
  | some q =>
    obtain ⟨lug, booking, room, guest, prop⟩ := q
    rw [hjoin] at h
    simp only at h
    constructor
    · intro hnone
      cases hnone
    intro lug' bk rm gu pr hsome
    simp only [Option.some.injEq, Prod.mk.injEq] at hsome
    obtain ⟨rfl, rfl, rfl, rfl, rfl⟩ := hsome
    refine ⟨fun hpend => ?_, fun hblocked => ?_, fun hexited => ?_⟩
    · rw [if_neg (by simp [hpend]), if_neg (by simp [hpend])] at h
      simp only at h
      injection h with h1 h2
      cases h1
      cases h2
      exact ⟨by simp, by simp, by simp⟩
    · rw [if_neg (by simp [hblocked]), if_pos (by simp [hblocked])] at h
      injection h with h1 h2
      cases h1
      cases h2
      exact ⟨by simp, by simp, by simp⟩
    · rw [if_pos (by simp [hexited])] at h
      injection h with h1 h2
      cases h1
      cases h2
      exact ⟨by simp, by simp, by simp⟩

/-- Witness for C4 at the pending fixture item. -/
theorem C4_luggage_scan_cases_witness :
    (guard_scan_post dbLugPending 1 1 ("lug1".toList)).1.decision = "allow" ∧
    (guard_scan_post dbLugPending 1 1 ("lug1".toList)).2.luggage =
      dbLugPending.luggage.map
        (fun l => if l.id == lugPending.id then { l with status := "exited" } else l) ∧
    (guard_scan_post dbLugPending 1 1 ("lug1".toList)).2.luggageScanLogs =
      dbLugPending.luggageScanLogs ++
        [{ guard_id := 1, checkpoint_id := 1, luggage_id := lugPending.id,
           decision := "allow", note := "Authorized to exit." }] :=
  ((C4_luggage_scan_cases dbLugPending 1 1 ("lug1".toList) _ _ (by decide)
      rfl).2 lugPending bookingA roomA guestA propA (by decide)).1 rfl

/-- C1 as stated is false on the code: a person scan with no resolvable
identity string returns `deny`/`no_id` without writing any audit row (the
handler returns before the `AccessLog` insert), and an empty QR token on
either QR endpoint likewise writes nothing: zero rows, not exactly one. -/
theorem C1_counterexample :
    (scan_post dbEmpty 1 1 ("".toList) 0).map
        (fun p => (p.1.decision, p.1.reason, p.2.accessLogs.length))
      = some ("deny", some "no_id", 0)
  ∧ dbEmpty.accessLogs.length = 0
  ∧ (booking_scan_post dbEmpty 1 1 ("".toList) 0).map
      (fun p => (p.1.decision, p.2.accessLogs.length)) = some ("deny", 0)
  ∧ ((guard_scan_post dbEmpty 1 1 ("".toList)).1.decision,
      (guard_scan_post dbEmpty 1 1 ("".toList)).2.luggageScanLogs.length)
      = ("deny", 0) := by
  decide

/-- C1, amended: every scan invocation that submits a non-empty identity
string or token appends exactly one audit/scan-log row — in particular an
unrecognized QR token is still logged — while the person no-id early exit
and the empty-token early exits return `deny` without writing a log row. -/
theorem C1_one_log_row_amended :
    (∀ db g c sid t resp db', scan_post db g c sid t = some (resp, db') →
      ((pyStrip sid).isEmpty = false →
        db'.accessLogs.length = db.accessLogs.length + 1) ∧
      ((pyStrip sid).isEmpty = true → db'.accessLogs = db.accessLogs ∧
        resp.decision = "deny" ∧ resp.reason = some "no_id"))
  ∧ (∀ db g c tok t resp db', booking_scan_post db g c tok t = some (resp, db') →
      ((pyStrip tok).isEmpty = false →
        db'.accessLogs.length = db.accessLogs.length + 1) ∧
      ((pyStrip tok).isEmpty = true → db'.accessLogs = db.accessLogs ∧
        resp.decision = "deny" ∧ resp.reason = some "no_qr"))
  ∧ (∀ db g c tok resp db', guard_scan_post db g c tok = (resp, db') →
      ((pyStrip tok).isEmpty = false →
        db'.luggageScanLogs.length = db.luggageScanLogs.length + 1) ∧
      ((pyStrip tok).isEmpty = true →
        db'.luggageScanLogs = db.luggageScanLogs ∧
        resp.decision = "deny" ∧ resp.reason = some "no_qr")) := by
  refine ⟨?_, ?_, ?_⟩
  · intro db g c sid t resp db' h
    unfold scan_post at h
    by_cases hemp : (pyStrip sid).isEmpty
    · rw [if_pos hemp] at h
      injection h with h'
      injection h' with h1 h2
      cases h1
      cases h2
      constructor
      · intro hne
        rw [hemp] at hne
        cases hne
      · exact fun _ => ⟨rfl, rfl, rfl⟩
    · rw [if_neg hemp] at h
      simp only at h
      constructor
      · intro _
        cases hg : db.guests.find? (fun g' => g'.national_id_number == pyStrip sid) with
        | none =>
          rw [hg] at h
          simp only [Option.bind] at h
          unfold scanPostTail at h
          simp only at h
          injection h with h'
          injection h' with h1 h2
          cases h2
          simp
        | some gu =>
          rw [hg] at h
          simp only [Option.bind] at h
          cases hb : pickLatestCheckout (activeBookingsFor db gu.id (nairobiOfUtc t)) with
          | none =>
            rw [hb] at h
            unfold scanPostTail at h
            simp only at h
            injection h with h'
            injection h' with h1 h2
            cases h2
            simp
          | some b =>
            rw [hb] at h
            unfold scanPostTail at h
            simp only at h
            rw [Option.bind_eq_some] at h
            obtain ⟨room, hroom, h⟩ := h
            rw [Option.bind_eq_some] at h
            obtain ⟨prop, hprop, h⟩ := h
            injection h with h'
            injection h' with h1 h2
            cases h2
            simp
      · intro hyes
        rw [hyes] at hemp
        cases hemp rfl
  · intro db g c tok t resp db' h
    unfold booking_scan_post at h
    by_cases hemp : (pyStrip tok).isEmpty
    · rw [if_pos hemp] at h
      injection h with h'
      injection h' with h1 h2
      cases h1
      cases h2
      constructor
      · intro hne
        rw [hemp] at hne
        cases hne
      · exact fun _ => ⟨rfl, rfl, rfl⟩
    · rw [if_neg hemp] at h
      constructor
      · intro _
        cases hfind : db.bookings.find? (fun b => b.qr_token == some (pyStrip tok)) with
        | none =>
          rw [hfind] at h
          unfold bookingScanPostTail at h
          simp only at h
          injection h with h'
          injection h' with h1 h2
          cases h2
          simp
        | some booking =>
          rw [hfind] at h
          unfold bookingScanPostTail at h
          simp only at h
          rw [Option.bind_eq_some] at h
          obtain ⟨room, hroom, h⟩ := h
          injection h with h'
          injection h' with h1 h2
          cases h2
          simp
      · intro hyes
        rw [hyes] at hemp
        cases hemp rfl
  · intro db g c tok resp db' h
    unfold guard_scan_post at h
    by_cases hemp : (pyStrip tok).isEmpty
    · rw [if_pos hemp] at h
      injection h with h1 h2
      cases h1
      cases h2
      constructor
      · intro hne
        rw [hemp] at hne
        cases hne
      · exact fun _ => ⟨rfl, rfl, rfl⟩
    · rw [if_neg hemp] at h
      constructor
      · intro _
        cases hjoin : lugJoin db (pyStrip tok) with
        | none =>
          rw [hjoin] at h
          injection h with h1 h2
          cases h2
          simp
        | some q =>
          obtain ⟨lug, booking, room, guest, prop⟩ := q
          rw [hjoin] at h
          simp only at h
          by_cases hex : lug.status == "exited"
          · rw [if_pos hex] at h
            injection h with h1 h2
            cases h2
            simp
          · rw [if_neg hex] at h
            by_cases hbl : lug.status == "blocked"
            · rw [if_pos hbl] at h
              injection h with h1 h2
              cases h2
              simp
            · rw [if_neg hbl] at h
              simp only at h
              injection h with h1 h2
              cases h2
              simp
      · intro hyes
        rw [hyes] at hemp
        cases hemp rfl

/-- Witness for the amended C1: an unknown identity on the empty store
still appends exactly one audit row. -/
theorem C1_one_log_row_amended_witness :
    ((scan_post dbEmpty 1 1 ("99999999".toList) 0).map
      (fun p => p.2.accessLogs.length)) = some (dbEmpty.accessLogs.length + 1) := by
  have h := (C1_one_log_row_amended.1 dbEmpty 1 1 ("99999999".toList) 0
      ((scan_post dbEmpty 1 1 ("99999999".toList) 0).get (by decide)).1
      ((scan_post dbEmpty 1 1 ("99999999".toList) 0).get (by decide)).2
      (by decide)).1 (by decide)
  rw [show scan_post dbEmpty 1 1 ("99999999".toList) 0
      = some (((scan_post dbEmpty 1 1 ("99999999".toList) 0).get (by decide)).1,
              ((scan_post dbEmpty 1 1 ("99999999".toList) 0).get (by decide)).2)
    from by decide]
  simp only [Option.map_some']
  exact congrArg some h

/-- C2 as stated is false on the code: the person-scan endpoint looks the
guest up by the raw stripped `detected_id`, not by the Normalizer's
canonical candidate id.  With the store holding a guest whose identity
number is `10345678` (an active booking in window), submitting `IO345678`
— whose normalization is exactly `10345678` — is denied, while submitting
the canonical digits is allowed, and the audit row records the raw text. -/
theorem C2_counterexample :
    normalizeId ("IO345678".toList) = some ("10345678".toList)
  ∧ (scan_post dbA 1 1 ("IO345678".toList) 0).map (fun p => p.1.decision)
      = some "deny"
  ∧ (scan_post dbA 1 1 ("10345678".toList) 0).map (fun p => p.1.decision)
      = some "allow"
  ∧ (scan_post dbA 1 1 ("IO345678".toList) 0).map
      (fun p => p.2.accessLogs.map (fun lg => lg.national_id_number))
      = some [some ("IO345678".toList)] := by
  decide

/-- C2, amended: the person-scan decision path uses the raw stripped
`detected_id` itself as the guest-lookup key — the verdict is `allow`
exactly when the Booking Window Matcher finds an active booking for that
raw key — and the audit row records that raw key; the Identity Normalizer
is applied only inside the server-side OCR helper `extract_id_text`, which
this route does not invoke. -/
theorem C2_raw_lookup_amended (db : Db) (g c : Nat) (sid : List Char) (t : Int)
    (resp : GuardResp) (db' : Db)
    (hne : (pyStrip sid).isEmpty = false)
    (h : scan_post db g c sid t = some (resp, db')) :
    (resp.decision = "allow" ↔
      (findActiveBooking db (pyStrip sid) (nairobiOfUtc t)).isSome = true)
    ∧ ∃ lg, db'.accessLogs = db.accessLogs ++ [lg] ∧
        lg.national_id_number = some (pyStrip sid) := by
  unfold scan_post at h
  rw [if_neg (by simp [hne])] at h
  simp only at h
  unfold findActiveBooking
  cases hg : db.guests.find? (fun g' => g'.national_id_number == pyStrip sid) with
  | none =>
    rw [hg] at h
    simp only [Option.bind] at h
    unfold scanPostTail at h
    simp only at h
    injection h with h'
    injection h' with h1 h2
    cases h1
    cases h2
    exact ⟨by simp, ⟨_, rfl, rfl⟩⟩
  | some gu =>
    rw [hg] at h
    simp only [Option.bind] at h
    cases hb : pickLatestCheckout (activeBookingsFor db gu.id (nairobiOfUtc t)) with
    | none =>
      rw [hb] at h
      unfold scanPostTail at h
      simp only at h
      injection h with h'
      injection h' with h1 h2
      cases h1
      cases h2
      exact ⟨by simp [hb], ⟨_, rfl, rfl⟩⟩
    | some b =>
      rw [hb] at h
      unfold scanPostTail at h
      simp only at h
      rw [Option.bind_eq_some] at h
      obtain ⟨room, hroom, h⟩ := h
      rw [Option.bind_eq_some] at h
      obtain ⟨prop, hprop, h⟩ := h
      injection h with h'
      injection h' with h1 h2
      cases h1
      cases h2
      exact ⟨by simp [hb], ⟨_, rfl, rfl⟩⟩

/-- Witness for the amended C2 at the canonical-digits fixture input. -/
theorem C2_raw_lookup_amended_witness :
    (((scan_post dbA 1 1 ("10345678".toList) 0).get (by decide)).1.decision
        = "allow" ↔
      (findActiveBooking dbA (pyStrip ("10345678".toList))
        (nairobiOfUtc 0)).isSome = true)
    ∧ ∃ lg, ((scan_post dbA 1 1 ("10345678".toList) 0).get
          (by decide)).2.accessLogs = dbA.accessLogs ++ [lg] ∧
        lg.national_id_number = some (pyStrip ("10345678".toList)) :=
  C2_raw_lookup_amended dbA 1 1 ("10345678".toList) 0 _ _ (by decide) (by decide)

/-- C6 as stated is false on the code: the two paths do not evaluate the
predicate against the same timestamp convention — the person path uses the
naive Nairobi wall clock (UTC+3), the booking-QR path naive UTC — so at
the same UTC instant 900 the same booking (window [1000, 1100]) is allowed
by the person path (wall clock 1080) and denied by the QR path. -/
theorem C6_counterexample :
    dbB.bookings = [bookingB]
  ∧ guestA.national_id_number = "10345678".toList
  ∧ bookingB.qr_token = some ("tok2".toList)
  ∧ (scan_post dbB 1 1 ("10345678".toList) 900).map (fun p => p.1.decision)
      = some "allow"
  ∧ (booking_scan_post dbB 1 1 ("tok2".toList) 900).map (fun p => p.1.decision)
      = some "deny" := by
  decide

/-- C6, amended: the person-scan filter and the booking-QR check compute
the identical active-booking predicate of a booking and a timestamp
(`status != "cancelled"` and `check_in <= t <= check_out`); the two routes
differ only in the timestamp they feed it (Nairobi wall clock vs UTC). -/
theorem C6_same_predicate_amended (b : Booking) (t : Int) :
    personActiveCheck b t = bookingQrActiveCheck b t := by
  unfold personActiveCheck bookingQrActiveCheck
  by_cases h1 : b.check_in ≤ t <;> by_cases h2 : t ≤ b.check_out <;>
    by_cases h3 : b.status = "cancelled" <;>
      simp [h1, h2, h3, ge_iff_le]

/-- C3: `findActiveBooking` returns a booking exactly when the guest
resolved by exact identity match has a booking containing the instant with
status other than `cancelled`; the returned booking has the latest
`check_out` among the qualifying ones; and when it returns none the
person-scan verdict is `deny` with reason `no_active_booking`. -/
theorem C3_find_active_booking (db : Db) (nid : List Char) (now : Int) :
    (∀ b, findActiveBooking db nid now = some b →
      ∃ g, db.guests.find? (fun g' => g'.national_id_number == nid) = some g ∧
        b ∈ db.bookings ∧ b.guest_id = g.id ∧
        b.check_in ≤ now ∧ now ≤ b.check_out ∧ b.status ≠ "cancelled" ∧
        ∀ b' ∈ db.bookings, b'.guest_id = g.id → b'.check_in ≤ now →
          now ≤ b'.check_out → b'.status ≠ "cancelled" →
            b'.check_out ≤ b.check_out)
  ∧ (findActiveBooking db nid now = none →
      ∀ g, db.guests.find? (fun g' => g'.national_id_number == nid) = some g →
        ∀ b' ∈ db.bookings, b'.guest_id = g.id → b'.check_in ≤ now →
          now ≤ b'.check_out → b'.status = "cancelled")
  ∧ (∀ g c sid t resp db', pyStrip sid = nid → nid.isEmpty = false →
      now = nairobiOfUtc t → findActiveBooking db nid now = none →
      scan_post db g c sid t = some (resp, db') →
      resp.decision = "deny" ∧ resp.reason = some "no_active_booking") := by
  refine ⟨?_, ?_, ?_⟩
  · intro b h
    unfold findActiveBooking at h
    rw [Option.bind_eq_some] at h
    obtain ⟨g, hg, hpick⟩ := h
    refine ⟨g, hg, ?_, ?_, ?_, ?_, ?_, ?_⟩
    · have := pickLatestCheckout_mem _ _ hpick
      rw [activeBookingsFor, List.mem_filter] at this
      exact this.1
    · have := pickLatestCheckout_mem _ _ hpick
      rw [activeBookingsFor, List.mem_filter] at this
      have h2 := this.2
      simp only [Bool.and_eq_true, beq_iff_eq] at h2
      exact h2.1
    · have := pickLatestCheckout_mem _ _ hpick
      rw [activeBookingsFor, List.mem_filter] at this
      have h2 := this.2
      simp only [personActiveCheck, Bool.and_eq_true, decide_eq_true_eq,
        Bool.not_eq_true', beq_eq_false_iff_ne, ge_iff_le] at h2
      exact h2.2.1.1
    · have := pickLatestCheckout_mem _ _ hpick
      rw [activeBookingsFor, List.mem_filter] at this
      have h2 := this.2
      simp only [personActiveCheck, Bool.and_eq_true, decide_eq_true_eq,
        Bool.not_eq_true', beq_eq_false_iff_ne, ge_iff_le] at h2
      exact h2.2.1.2
    · have := pickLatestCheckout_mem _ _ hpick
      rw [activeBookingsFor, List.mem_filter] at this
      have h2 := this.2
      simp only [personActiveCheck, Bool.and_eq_true, decide_eq_true_eq,
        Bool.not_eq_true', beq_eq_false_iff_ne, ge_iff_le] at h2
      exact h2.2.2
    · intro b' hb' hgid hci hco hst
      refine pickLatestCheckout_max _ _ hpick b' ?_
      rw [activeBookingsFor, List.mem_filter]
      refine ⟨hb', ?_⟩
      simp only [personActiveCheck, Bool.and_eq_true, decide_eq_true_eq,
        Bool.not_eq_true', beq_eq_false_iff_ne, ge_iff_le, beq_iff_eq]
      exact ⟨hgid, ⟨hci, hco⟩, hst⟩
  · intro h g hg b' hb' hgid hci hco
    unfold findActiveBooking at h
    rw [hg] at h
    simp only [Option.bind] at h
    rw [pickLatestCheckout_eq_none] at h
    by_contra hst
    have hmem : b' ∈ activeBookingsFor db g.id now := by
      rw [activeBookingsFor, List.mem_filter]
      refine ⟨hb', ?_⟩
      simp only [personActiveCheck, Bool.and_eq_true, decide_eq_true_eq,
        Bool.not_eq_true', beq_eq_false_iff_ne, ge_iff_le, beq_iff_eq]
      exact ⟨hgid, ⟨hci, hco⟩, hst⟩
    rw [h] at hmem
    cases hmem
  · intro g c sid t resp db' hsid hnemp hnow hnone h
    unfold scan_post at h
    rw [hsid, if_neg (by simp [hnemp])] at h
    simp only at h
    cases hg : db.guests.find? (fun g' => g'.national_id_number == nid) with
    | none =>
      rw [hg] at h
      simp only [Option.bind] at h
      unfold scanPostTail at h
      simp only at h
      injection h with h'
      injection h' with h1 h2
      cases h1
      exact ⟨rfl, rfl⟩
    | some gu =>
      rw [hg] at h
      simp only [Option.bind] at h
      have hpick : pickLatestCheckout
          (activeBookingsFor db gu.id (nairobiOfUtc t)) = none := by
        unfold findActiveBooking at hnone
        rw [hg, hnow] at hnone
        simpa [Option.bind] using hnone
      rw [hpick] at h
      unfold scanPostTail at h
      simp only at h
      injection h with h'
      injection h' with h1 h2
      cases h1
      exact ⟨rfl, rfl⟩

/-- Witness for C3 at the fixture store: the wide booking is returned and
is maximal. -/
theorem C3_find_active_booking_witness :
    ∃ g, dbA.guests.find?
        (fun g' => g'.national_id_number == "10345678".toList) = some g ∧
      bookingA ∈ dbA.bookings ∧ bookingA.guest_id = g.id ∧
      bookingA.check_in ≤ 180 ∧ (180 : Int) ≤ bookingA.check_out ∧
      bookingA.status ≠ "cancelled" ∧
      ∀ b' ∈ dbA.bookings, b'.guest_id = g.id → b'.check_in ≤ 180 →
        (180 : Int) ≤ b'.check_out → b'.status ≠ "cancelled" →
          b'.check_out ≤ bookingA.check_out :=
  (C3_find_active_booking dbA ("10345678".toList) 180).1 bookingA (by decide)

/-- C9: on the booking-QR path with a non-empty token, whenever a booking
matching the token exists the JSON response carries the full info payload
(guest, property, room, stay window, occupancy, vehicle) alongside the
decision — also when the verdict is `deny` because the booking is
cancelled or the instant is outside the stay window; only the
token-not-found case returns no info. -/
theorem C9_booking_qr_info_always (db : Db) (g c : Nat) (tok : List Char)
    (t : Int) (hne : (pyStrip tok).isEmpty = false) :
    (db.bookings.find? (fun b => b.qr_token == some (pyStrip tok)) = none →
      ∀ resp db', booking_scan_post db g c tok t = some (resp, db') →
        resp.info = none ∧ resp.decision = "deny" ∧
        resp.message = some "QR not recognized.")
  ∧ (∀ b, db.bookings.find? (fun b' => b'.qr_token == some (pyStrip tok))
        = some b →
      ∀ resp db', booking_scan_post db g c tok t = some (resp, db') →
        ∃ i, resp.info = some i ∧ i.booking_id = b.id ∧
          i.check_in = b.check_in ∧ i.check_out = b.check_out ∧
          i.guests_count = b.guests_count ∧
          i.owns_vehicle = b.owns_vehicle ∧
          i.vehicle_plate = b.vehicle_plate ∧
          (∀ gu, db.guests.find? (fun x => x.id == b.guest_id) = some gu →
            i.guest_name = gu.full_name ∧
            i.national_id = gu.national_id_number) ∧
          (∀ rm, db.rooms.find? (fun r => r.id == b.room_id) = some rm →
            i.room = rm.name) ∧
          (resp.decision = "allow" ↔ bookingQrActiveCheck b t = true)) := by
  constructor
  · intro hfind resp db' h
    unfold booking_scan_post at h
    rw [if_neg (by simp [hne]), hfind] at h
    unfold bookingScanPostTail at h
    simp only at h
    injection h with h'
    injection h' with h1 h2
    cases h1
    exact ⟨rfl, rfl, rfl⟩
  · intro b hfind resp db' h
    unfold booking_scan_post at h
    rw [if_neg (by simp [hne]), hfind] at h
    unfold bookingScanPostTail at h
    simp only at h
    rw [Option.bind_eq_some] at h
    obtain ⟨room, hroom, h⟩ := h
    injection h with h'
    injection h' with h1 h2
    cases h1
    refine ⟨_, rfl, rfl, rfl, rfl, rfl, rfl, rfl, ?_, ?_, ?_⟩
    · intro gu hgu
      rw [hgu]
      exact ⟨rfl, rfl⟩
    · intro rm hrm
      rw [hrm] at hroom
      injection hroom with hroom
      rw [hroom]
    · by_cases hc : bookingQrActiveCheck b t <;> simp [hc]

/-- Witness for C9: the narrow fixture booking at UTC 900 is outside its
window, so the decision is deny yet the payload is present. -/
theorem C9_booking_qr_info_always_witness :
    ∃ i, ((booking_scan_post dbB 1 1 ("tok2".toList) 900).get
        (by decide)).1.info = some i ∧
      i.booking_id = bookingB.id ∧
      i.check_in = bookingB.check_in ∧ i.check_out = bookingB.check_out ∧
      i.guests_count = bookingB.guests_count ∧
      i.owns_vehicle = bookingB.owns_vehicle ∧
      i.vehicle_plate = bookingB.vehicle_plate ∧
      (∀ gu, dbB.guests.find? (fun x => x.id == bookingB.guest_id) = some gu →
        i.guest_name = gu.full_name ∧ i.national_id = gu.national_id_number) ∧
      (∀ rm, dbB.rooms.find? (fun r => r.id == bookingB.room_id) = some rm →
        i.room = rm.name) ∧
      (((booking_scan_post dbB 1 1 ("tok2".toList) 900).get
          (by decide)).1.decision = "allow" ↔
        bookingQrActiveCheck bookingB 900 = true) :=
  (C9_booking_qr_info_always dbB 1 1 ("tok2".toList) 900 (by decide)).2
    bookingB (by decide)
    ((booking_scan_post dbB 1 1 ("tok2".toList) 900).get (by decide)).1
    ((booking_scan_post dbB 1 1 ("tok2".toList) 900).get (by decide)).2
    (by decide)

/-! ## Theory of the regex search in `_pick_id` -/

theorem boundaryOk_iff (o : Option Char) :
    boundaryOk o = true ↔ ∀ c, o = some c → isWordChar c = false := by
  cases o <;> simp [boundaryOk]

theorem headBoundary_iff (l : List Char) :
    headBoundary l = true ↔ ∀ c, l.head? = some c → isWordChar c = false := by
  cases l <;> simp [headBoundary]

theorem digit_isWordChar (c : Char) (h : c.isDigit = true) :
    isWordChar c = true := by
  simp [isWordChar, Char.isAlphanum, h]

theorem getLast?_mem_of_eq_some (l : List Char) (c : Char)
    (h : l.getLast? = some c) : c ∈ l := by
  obtain ⟨hne, hc⟩ := List.mem_getLast?_eq_getLast (show c ∈ l.getLast? by simp [h])
  rw [hc]
  exact List.getLast_mem hne

theorem prevOf_nil (prev : Option Char) : prevOf prev [] = prev := rfl

theorem prevOf_cons (prev : Option Char) (c : Char) (pre : List Char) :
    prevOf prev (c :: pre) = prevOf (some c) pre := by
  cases pre with
  | nil => rfl
  | cons c2 pre2 =>
    unfold prevOf
    rw [List.getLast?_cons_cons]
    cases h : (c2 :: pre2).getLast? with
    | some x => rfl
    | none =>
      exfalso
      have hs := (List.getLast?_isSome (l := c2 :: pre2)).mpr (by simp)
      rw [h] at hs
      cases hs

theorem prevOf_none (pre : List Char) : prevOf none pre = pre.getLast? := by
  unfold prevOf
  cases pre.getLast? <;> rfl

theorem tryExact8_nil (p : Option Char) : tryExact8 p [] = none := by
  simp [tryExact8]

theorem tryRunK_nil (k : Nat) (hk : 0 < k) : tryRunK k [] = none := by
  unfold tryRunK
  rw [if_neg]
  simp
  omega

theorem tryRun79_nil (p : Option Char) : tryRun79 p [] = none := by
  unfold tryRun79
  rw [tryRunK_nil 9 (by omega), tryRunK_nil 8 (by omega), tryRunK_nil 7 (by omega)]
  cases boundaryOk p <;> rfl

theorem searchAux_cons_some (f : Option Char → List Char → Option (List Char))
    (prev : Option Char) (a : Char) (rest d0 : List Char)
    (h : f prev (a :: rest) = some d0) :
    searchAux f prev (a :: rest) = some d0 := by
  simp only [searchAux, h]

theorem searchAux_cons_none (f : Option Char → List Char → Option (List Char))
    (prev : Option Char) (a : Char) (rest : List Char)
    (h : f prev (a :: rest) = none) :
    searchAux f prev (a :: rest) = searchAux f (some a) rest := by
  simp only [searchAux, h]

theorem tryExact8_eq_some_iff (prev : Option Char) (s d : List Char) :
    tryExact8 prev s = some d ↔
      boundaryOk prev = true ∧
      ∃ post, s = d ++ post ∧ d.length = 8 ∧
        (∀ c ∈ d, c.isDigit = true) ∧
        (∀ c, post.head? = some c → isWordChar c = false) := by
  unfold tryExact8
  by_cases hcond : (boundaryOk prev && decide (8 ≤ s.length)
      && (s.take 8).all Char.isDigit && headBoundary (s.drop 8)) = true
  · rw [if_pos hcond]
    simp only [Bool.and_eq_true, decide_eq_true_eq] at hcond
    obtain ⟨⟨⟨hb, hlen⟩, hdig⟩, hhead⟩ := hcond
    constructor
    · intro h
      injection h with h
      subst h
      refine ⟨hb, s.drop 8, (List.take_append_drop 8 s).symm, ?_, ?_, ?_⟩
      · rw [List.length_take]
        omega
      · exact fun c hc => List.all_eq_true.mp hdig c hc
      · exact (headBoundary_iff _).mp hhead
    · rintro ⟨-, post, hsplit, hlen8, -, -⟩
      rw [hsplit, List.take_left' hlen8]
  · rw [if_neg hcond]
    constructor
    · intro h
      cases h
    · rintro ⟨hb', post, hsplit, hlen8, hdig', hpost⟩
      exfalso
      apply hcond
      subst hsplit
      simp only [Bool.and_eq_true, decide_eq_true_eq]
      refine ⟨⟨⟨hb', ?_⟩, ?_⟩, ?_⟩
      · rw [List.length_append]
        omega
      · rw [List.take_left' hlen8]
        exact List.all_eq_true.mpr hdig'
      · rw [List.drop_left' hlen8]
        exact (headBoundary_iff _).mpr hpost

theorem tryRunK_eq_some_iff (k : Nat) (s d : List Char) :
    tryRunK k s = some d ↔
      ∃ post, s = d ++ post ∧ d.length = k ∧
        (∀ c ∈ d, c.isDigit = true) ∧
        (∀ c, post.head? = some c → isWordChar c = false) := by
  unfold tryRunK
  by_cases hcond : (decide (k ≤ s.length) && (s.take k).all Char.isDigit
      && headBoundary (s.drop k)) = true
  · rw [if_pos hcond]
    simp only [Bool.and_eq_true, decide_eq_true_eq] at hcond
    obtain ⟨⟨hlen, hdig⟩, hhead⟩ := hcond
    constructor
    · intro h
      injection h with h
      subst h
      refine ⟨s.drop k, (List.take_append_drop k s).symm, ?_, ?_, ?_⟩
      · rw [List.length_take]
        omega
      · exact fun c hc => List.all_eq_true.mp hdig c hc
      · exact (headBoundary_iff _).mp hhead
    · rintro ⟨post, hsplit, hlenk, -, -⟩
      rw [hsplit, List.take_left' hlenk]
  · rw [if_neg hcond]
    constructor
    · intro h
      cases h
    · rintro ⟨post, hsplit, hlenk, hdig', hpost⟩
      exfalso
      apply hcond
      subst hsplit
      simp only [Bool.and_eq_true, decide_eq_true_eq]
      refine ⟨⟨?_, ?_⟩, ?_⟩
      · rw [List.length_append]
        omega
      · rw [List.take_left' hlenk]
        exact List.all_eq_true.mpr hdig'
      · rw [List.drop_left' hlenk]
        exact (headBoundary_iff _).mpr hpost

/-- A `\d{k'}\b` attempt fails at a position where the boundary-delimited
digit run has length `k < k'`: the run's terminator is not a word
character, while the `k'`-attempt would need a digit there. -/
theorem tryRunK_eq_none_of_shorter (k k' : Nat) (hk : k < k')
    (s d post : List Char) (hs : s = d ++ post) (hd : d.length = k)
    (hpost : ∀ c, post.head? = some c → isWordChar c = false) :
    tryRunK k' s = none := by
  cases h : tryRunK k' s with
  | none => rfl
  | some d' =>
    exfalso
    rw [tryRunK_eq_some_iff] at h
    obtain ⟨post', hsplit', hlen', hdig', -⟩ := h
    have hslen' : k' ≤ s.length := by
      rw [hsplit', List.length_append, hlen']
      omega
    cases hpostcase : post with
    | nil =>
      rw [hpostcase] at hs
      rw [hs, List.append_nil] at hslen'
      omega
    | cons p post2 =>
      have hp : p ∈ d' := by
        have hd' : d' = s.take k' := by
          rw [hsplit', List.take_left' hlen']
        obtain ⟨m, hm⟩ : ∃ m, k' - d.length = m + 1 := ⟨k' - d.length - 1, by omega⟩
        rw [hd', hs, hpostcase, List.take_append_eq_append_take, hm,
          List.take_succ_cons]
        exact List.mem_append_right _ (List.mem_cons_self _ _)
      have hw := digit_isWordChar p (hdig' p hp)
      have hnw := hpost p (by rw [hpostcase]; rfl)
      rw [hw] at hnw
      cases hnw

theorem tryRun79_eq_some_iff (prev : Option Char) (s d : List Char) :
    tryRun79 prev s = some d ↔
      boundaryOk prev = true ∧
      ∃ post, s = d ++ post ∧
        (d.length = 7 ∨ d.length = 8 ∨ d.length = 9) ∧
        (∀ c ∈ d, c.isDigit = true) ∧
        (∀ c, post.head? = some c → isWordChar c = false) := by
  unfold tryRun79
  by_cases hb : boundaryOk prev = true
  · rw [if_pos hb]
    constructor
    · intro h
      cases h9 : tryRunK 9 s with
      | some d9 =>
        rw [h9] at h
        injection h with h
        subst h
        rw [tryRunK_eq_some_iff] at h9
        obtain ⟨post, h1, h2, h3, h4⟩ := h9
        exact ⟨hb, post, h1, Or.inr (Or.inr h2), h3, h4⟩
      | none =>
        rw [h9] at h
        dsimp only at h
        cases h8 : tryRunK 8 s with
        | some d8 =>
          rw [h8] at h
          injection h with h
          subst h
          rw [tryRunK_eq_some_iff] at h8
          obtain ⟨post, h1, h2, h3, h4⟩ := h8
          exact ⟨hb, post, h1, Or.inr (Or.inl h2), h3, h4⟩
        | none =>
          rw [h8] at h
          dsimp only at h
          rw [tryRunK_eq_some_iff] at h
          obtain ⟨post, h1, h2, h3, h4⟩ := h
          exact ⟨hb, post, h1, Or.inl h2, h3, h4⟩
    · rintro ⟨-, post, hsplit, hlen, hdig, hpost⟩
      rcases hlen with h7 | h8 | h9
      · rw [tryRunK_eq_none_of_shorter 7 9 (by omega) s d post hsplit h7 hpost]
        dsimp only
        rw [tryRunK_eq_none_of_shorter 7 8 (by omega) s d post hsplit h7 hpost]
        dsimp only
        rw [tryRunK_eq_some_iff]
        exact ⟨post, hsplit, h7, hdig, hpost⟩
      · rw [tryRunK_eq_none_of_shorter 8 9 (by omega) s d post hsplit h8 hpost]
        dsimp only
        rw [show tryRunK 8 s = some d from
          (tryRunK_eq_some_iff 8 s d).mpr ⟨post, hsplit, h8, hdig, hpost⟩]
      · rw [show tryRunK 9 s = some d from
          (tryRunK_eq_some_iff 9 s d).mpr ⟨post, hsplit, h9, hdig, hpost⟩]
  · rw [if_neg hb]
    constructor
    · intro h
      cases h
    · rintro ⟨hb', -⟩
      exact absurd hb' hb

/-- `re.search` soundness and completeness: the scan returns `some d` iff
some split admits an anchored match producing `d` and every strictly
earlier split admits none. -/
theorem searchAux_eq_some_iff
    (f : Option Char → List Char → Option (List Char))
    (hnil : ∀ p, f p [] = none) :
    ∀ (s : List Char) (prev : Option Char) (d : List Char),
      searchAux f prev s = some d ↔
        ∃ pre post, s = pre ++ post ∧ f (prevOf prev pre) post = some d ∧
          ∀ pre' post', s = pre' ++ post' → pre'.length < pre.length →
            f (prevOf prev pre') post' = none := by
  intro s
  induction s with
  | nil =>
    intro prev d
    simp only [searchAux]
    constructor
    · intro h
      cases h
    · rintro ⟨pre, post, hsplit, hf, -⟩
      exfalso
      have hpre : pre = [] := by
        cases pre with
        | nil => rfl
        | cons a l => cases hsplit
      subst hpre
      rw [List.nil_append] at hsplit
      rw [prevOf_nil, ← hsplit, hnil] at hf
      cases hf
  | cons a rest ih =>
    intro prev d
    cases hfa : f prev (a :: rest) with
    | some d0 =>
      rw [searchAux_cons_some f prev a rest d0 hfa]
      constructor
      · intro h
        injection h with h
        subst h
        refine ⟨[], a :: rest, rfl, ?_, ?_⟩
        · rw [prevOf_nil]
          exact hfa
        · intro pre' post' h1 h2
          simp at h2
      · rintro ⟨pre, post, hsplit, hf, hmin⟩
        cases pre with
        | nil =>
          rw [List.nil_append] at hsplit
          subst hsplit
          rw [prevOf_nil, hfa] at hf
          exact hf
        | cons b pre2 =>
          have h0 := hmin [] (a :: rest) rfl (by simp)
          rw [prevOf_nil, hfa] at h0
          cases h0
    | none =>
      rw [searchAux_cons_none f prev a rest hfa, ih (some a) d]
      constructor
      · rintro ⟨pre, post, hsplit, hf, hmin⟩
        refine ⟨a :: pre, post, by rw [List.cons_append, ← hsplit], ?_, ?_⟩
        · rw [prevOf_cons]
          exact hf
        · intro pre' post' h1 h2
          cases pre' with
          | nil =>
            rw [List.nil_append] at h1
            rw [prevOf_nil, ← h1]
            exact hfa
          | cons b pre2 =>
            injection h1 with hb hrest
            subst hb
            rw [prevOf_cons]
            exact hmin pre2 post' hrest (by simpa using h2)
      · rintro ⟨pre, post, hsplit, hf, hmin⟩
        cases pre with
        | nil =>
          rw [List.nil_append] at hsplit
          subst hsplit
          rw [prevOf_nil, hfa] at hf
          cases hf
        | cons b pre2 =>
          injection hsplit with hb hrest
          subst hb
          refine ⟨pre2, post, hrest, ?_, ?_⟩
          · rw [← prevOf_cons]
            exact hf
          · intro pre' post' h1 h2
            have h3 := hmin (a :: pre') post' (by rw [List.cons_append, ← h1])
              (by simpa using h2)
            rw [prevOf_cons] at h3
            exact h3

/-- `re.search` returns nothing iff no split admits an anchored match. -/
theorem searchAux_eq_none_iff
    (f : Option Char → List Char → Option (List Char))
    (hnil : ∀ p, f p [] = none) :
    ∀ (s : List Char) (prev : Option Char),
      searchAux f prev s = none ↔
        ∀ pre post, s = pre ++ post → f (prevOf prev pre) post = none := by
  intro s
  induction s with
  | nil =>
    intro prev
    simp only [searchAux]
    constructor
    · intro _ pre post hsplit
      have hpre : pre = [] := by
        cases pre with
        | nil => rfl
        | cons a l => cases hsplit
      subst hpre
      rw [List.nil_append] at hsplit
      rw [prevOf_nil, ← hsplit]
      exact hnil _
    · intro _
      trivial
  | cons a rest ih =>
    intro prev
    cases hfa : f prev (a :: rest) with
    | some d0 =>
      rw [searchAux_cons_some f prev a rest d0 hfa]
      constructor
      · intro h
        cases h
      · intro hall
        have h0 := hall [] (a :: rest) rfl
        rw [prevOf_nil, hfa] at h0
        cases h0
    | none =>
      rw [searchAux_cons_none f prev a rest hfa, ih (some a)]
      constructor
      · intro hall pre post hsplit
        cases pre with
        | nil =>
          rw [List.nil_append] at hsplit
          rw [prevOf_nil, ← hsplit]
          exact hfa
        | cons b pre2 =>
          injection hsplit with hb hrest
          subst hb
          rw [prevOf_cons]
          exact hall pre2 post hrest
      · intro hall pre post hsplit
        have h3 := hall (a :: pre) post (by rw [List.cons_append, ← hsplit])
        rw [prevOf_cons] at h3
        exact h3

theorem searchExact8_eq_some_iff (s d : List Char) :
    searchAux tryExact8 none s = some d ↔
      ∃ pre, isExact8Split s pre d ∧
        ∀ pre' d', isExact8Split s pre' d' → pre.length ≤ pre'.length := by
  rw [searchAux_eq_some_iff tryExact8 tryExact8_nil s none d]
  constructor
  · rintro ⟨pre, post, hsplit, hf, hmin⟩
    rw [prevOf_none, tryExact8_eq_some_iff] at hf
    obtain ⟨hb, post2, hpost2, hlen, hdig, hpost⟩ := hf
    refine ⟨pre, ⟨post2, by rw [hsplit, hpost2], hlen, hdig,
      (boundaryOk_iff _).mp hb, hpost⟩, ?_⟩
    intro pre' d' hsplit'
    by_contra hlt
    push_neg at hlt
    obtain ⟨post', hs', hlen', hdig', hlast', hhead'⟩ := hsplit'
    have hnone := hmin pre' (d' ++ post') hs' hlt
    rw [prevOf_none] at hnone
    have hsome : tryExact8 pre'.getLast? (d' ++ post') = some d' :=
      (tryExact8_eq_some_iff _ _ _).mpr
        ⟨(boundaryOk_iff _).mpr hlast', post', rfl, hlen', hdig', hhead'⟩
    rw [hnone] at hsome
    cases hsome
  · rintro ⟨pre, ⟨post, hsplit, hlen, hdig, hlast, hhead⟩, hminSplit⟩
    refine ⟨pre, d ++ post, hsplit, ?_, ?_⟩
    · rw [prevOf_none, tryExact8_eq_some_iff]
      exact ⟨(boundaryOk_iff _).mpr hlast, post, rfl, hlen, hdig, hhead⟩
    · intro pre' post' hs' hlt
      cases htry : tryExact8 (prevOf none pre') post' with
      | none => rfl
      | some d' =>
        exfalso
        rw [prevOf_none, tryExact8_eq_some_iff] at htry
        obtain ⟨hb', post2, hpost2, hlen', hdig', hhead'⟩ := htry
        have hsp : isExact8Split s pre' d' :=
          ⟨post2, by rw [hs', hpost2], hlen', hdig',
            (boundaryOk_iff _).mp hb', hhead'⟩
        have := hminSplit pre' d' hsp
        omega

theorem searchExact8_eq_none_iff (s : List Char) :
    searchAux tryExact8 none s = none ↔
      ∀ pre d, ¬ isExact8Split s pre d := by
  rw [searchAux_eq_none_iff tryExact8 tryExact8_nil s none]
  constructor
  · intro hall pre d hsp
    obtain ⟨post, hsplit, hlen, hdig, hlast, hhead⟩ := hsp
    have hnone := hall pre (d ++ post) hsplit
    rw [prevOf_none] at hnone
    have hsome : tryExact8 pre.getLast? (d ++ post) = some d :=
      (tryExact8_eq_some_iff _ _ _).mpr
        ⟨(boundaryOk_iff _).mpr hlast, post, rfl, hlen, hdig, hhead⟩
    rw [hnone] at hsome
    cases hsome
  · intro hnone pre post hsplit
    cases htry : tryExact8 (prevOf none pre) post with
    | none => rfl
    | some d' =>
      exfalso
      rw [prevOf_none, tryExact8_eq_some_iff] at htry
      obtain ⟨hb', post2, hpost2, hlen', hdig', hhead'⟩ := htry
      exact hnone pre d' ⟨post2, by rw [hsplit, hpost2], hlen', hdig',
        (boundaryOk_iff _).mp hb', hhead'⟩

theorem searchRun79_eq_some_iff (s d : List Char) :
    searchAux tryRun79 none s = some d ↔
      ∃ pre, isRun79Split s pre d ∧
        ∀ pre' d', isRun79Split s pre' d' → pre.length ≤ pre'.length := by
  rw [searchAux_eq_some_iff tryRun79 tryRun79_nil s none d]
  constructor
  · rintro ⟨pre, post, hsplit, hf, hmin⟩
    rw [prevOf_none, tryRun79_eq_some_iff] at hf
    obtain ⟨hb, post2, hpost2, hlen, hdig, hpost⟩ := hf
    refine ⟨pre, ⟨post2, by rw [hsplit, hpost2], hlen, hdig,
      (boundaryOk_iff _).mp hb, hpost⟩, ?_⟩
    intro pre' d' hsplit'
    by_contra hlt
    push_neg at hlt
    obtain ⟨post', hs', hlen', hdig', hlast', hhead'⟩ := hsplit'
    have hnone := hmin pre' (d' ++ post') hs' hlt
    rw [prevOf_none] at hnone
    have hsome : tryRun79 pre'.getLast? (d' ++ post') = some d' :=
      (tryRun79_eq_some_iff _ _ _).mpr
        ⟨(boundaryOk_iff _).mpr hlast', post', rfl, hlen', hdig', hhead'⟩
    rw [hnone] at hsome
    cases hsome
  · rintro ⟨pre, ⟨post, hsplit, hlen, hdig, hlast, hhead⟩, hminSplit⟩
    refine ⟨pre, d ++ post, hsplit, ?_, ?_⟩
    · rw [prevOf_none, tryRun79_eq_some_iff]
      exact ⟨(boundaryOk_iff _).mpr hlast, post, rfl, hlen, hdig, hhead⟩
    · intro pre' post' hs' hlt
      cases htry : tryRun79 (prevOf none pre') post' with
      | none => rfl
      | some d' =>
        exfalso
        rw [prevOf_none, tryRun79_eq_some_iff] at htry
        obtain ⟨hb', post2, hpost2, hlen', hdig', hhead'⟩ := htry
        have hsp : isRun79Split s pre' d' :=
          ⟨post2, by rw [hs', hpost2], hlen', hdig',
            (boundaryOk_iff _).mp hb', hhead'⟩
        have := hminSplit pre' d' hsp
        omega

theorem searchRun79_eq_none_iff (s : List Char) :
    searchAux tryRun79 none s = none ↔
      ∀ pre d, ¬ isRun79Split s pre d := by
  rw [searchAux_eq_none_iff tryRun79 tryRun79_nil s none]
  constructor
  · intro hall pre d hsp
    obtain ⟨post, hsplit, hlen, hdig, hlast, hhead⟩ := hsp
    have hnone := hall pre (d ++ post) hsplit
    rw [prevOf_none] at hnone
    have hsome : tryRun79 pre.getLast? (d ++ post) = some d :=
      (tryRun79_eq_some_iff _ _ _).mpr
        ⟨(boundaryOk_iff _).mpr hlast, post, rfl, hlen, hdig, hhead⟩
    rw [hnone] at hsome
    cases hsome
  · intro hnone pre post hsplit
    cases htry : tryRun79 (prevOf none pre) post with
    | none => rfl
    | some d' =>
      exfalso
      rw [prevOf_none, tryRun79_eq_some_iff] at htry
      obtain ⟨hb', post2, hpost2, hlen', hdig', hhead'⟩ := htry
      exact hnone pre d' ⟨post2, by rw [hsplit, hpost2], hlen', hdig',
        (boundaryOk_iff _).mp hb', hhead'⟩

/-- Any property of the anchored matches transfers to the search result. -/
theorem searchAux_some_prop (f : Option Char → List Char → Option (List Char))
    (P : List Char → Prop)
    (hf : ∀ prev s d, f prev s = some d → P d) :
    ∀ (s : List Char) (prev : Option Char) (d : List Char),
      searchAux f prev s = some d → P d := by
  intro s
  induction s with
  | nil =>
    intro prev d h
    cases h
  | cons a rest ih =>
    intro prev d h
    cases hfa : f prev (a :: rest) with
    | some d0 =>
      rw [searchAux_cons_some f prev a rest d0 hfa] at h
      injection h with h
      subst h
      exact hf _ _ _ hfa
    | none =>
      rw [searchAux_cons_none f prev a rest hfa] at h
      exact ih _ _ h

/-- A successful extraction is a digit string of length 7, 8 or 9. -/
theorem pickId_some_shape (s d : List Char) (h : pickId s = some d) :
    (∀ c ∈ d, c.isDigit = true) ∧
    (d.length = 7 ∨ d.length = 8 ∨ d.length = 9) := by
  have hf8 : ∀ prev s' d', tryExact8 prev s' = some d' →
      (∀ c ∈ d', c.isDigit = true) ∧
      (d'.length = 7 ∨ d'.length = 8 ∨ d'.length = 9) := by
    intro prev s' d' hf
    rw [tryExact8_eq_some_iff] at hf
    obtain ⟨-, post, -, hlen, hdig, -⟩ := hf
    exact ⟨hdig, Or.inr (Or.inl hlen)⟩
  have hf79 : ∀ prev s' d', tryRun79 prev s' = some d' →
      (∀ c ∈ d', c.isDigit = true) ∧
      (d'.length = 7 ∨ d'.length = 8 ∨ d'.length = 9) := by
    intro prev s' d' hf
    rw [tryRun79_eq_some_iff] at hf
    obtain ⟨-, post, -, hlen, hdig, -⟩ := hf
    exact ⟨hdig, hlen⟩
  unfold pickId at h
  cases h8 : searchAux tryExact8 none s with
  | some d0 =>
    rw [h8] at h
    dsimp only at h
    injection h with h
    subst h
    exact searchAux_some_prop tryExact8 _ hf8 s none d0 h8
  | none =>
    rw [h8] at h
    dsimp only at h
    exact searchAux_some_prop tryRun79 _ hf79 s none d h

theorem confusable_digit (c : Char) (h : c.isDigit = true) :
    confusable c = c := by
  unfold confusable
  split_ifs with h1 h2 h3 h4 h5 h6
  · rcases h1 with rfl | rfl | rfl <;> exact absurd h (by decide)
  · rcases h2 with rfl | rfl | rfl | rfl <;> exact absurd h (by decide)
  · rcases h3 with rfl | rfl <;> exact absurd h (by decide)
  · exact absurd h (by rw [h4]; decide)
  · rcases h5 with rfl | rfl <;> exact absurd h (by decide)
  · rcases h6 with rfl | rfl <;> exact absurd h (by decide)
  · rfl

/-- `_norm` fixes digit strings. -/
theorem normText_digits (d : List Char) (h : ∀ c ∈ d, c.isDigit = true) :
    normText d = d := by
  unfold normText
  induction d with
  | nil => rfl
  | cons a l ih =>
    rw [List.map_cons, confusable_digit a (h a (List.mem_cons_self a l)),
      ih (fun c hc => h c (List.mem_cons_of_mem a hc))]

/-- Extraction succeeds identically on a bare 8-digit string. -/
theorem pickId_digits_8 (d : List Char) (hdig : ∀ c ∈ d, c.isDigit = true)
    (hlen : d.length = 8) : pickId d = some d := by
  have hsome : searchAux tryExact8 none d = some d := by
    rw [searchExact8_eq_some_iff]
    refine ⟨[], ⟨[], by simp, hlen, hdig, ?_, ?_⟩, fun pre' d' _ => by simp⟩
    · intro c hc
      cases hc
    · intro c hc
      cases hc
  unfold pickId
  rw [hsome]

/-- Extraction succeeds identically on a bare 7- or 9-digit string. -/
theorem pickId_digits_79 (d : List Char) (hdig : ∀ c ∈ d, c.isDigit = true)
    (hlen : d.length = 7 ∨ d.length = 9) : pickId d = some d := by
  have hnone : searchAux tryExact8 none d = none := by
    rw [searchExact8_eq_none_iff]
    intro pre d8 hsp
    obtain ⟨post, hsplit, hlen8, hdig8, hlast, hhead⟩ := hsp
    have hpre : pre = [] := by
      cases hprecase : pre with
      | nil => rfl
      | cons a l =>
        exfalso
        have hne : pre ≠ [] := by rw [hprecase]; simp
        have hs := (List.getLast?_isSome (l := pre)).mpr hne
        obtain ⟨c, hc⟩ := Option.isSome_iff_exists.mp hs
        have hcd : c ∈ d := by
          rw [hsplit]
          exact List.mem_append_left _ (getLast?_mem_of_eq_some pre c hc)
        have hw := digit_isWordChar c (hdig c hcd)
        have hnw := hlast c hc
        rw [hw] at hnw
        cases hnw
    subst hpre
    rw [List.nil_append] at hsplit
    cases hpostcase : post with
    | nil =>
      rw [hpostcase, List.append_nil] at hsplit
      have hd8 : d.length = 8 := by rw [hsplit, hlen8]
      rcases hlen with h7 | h9 <;> omega
    | cons p post2 =>
      rcases hlen with h7 | h9
      · have : d.length = 8 + post.length := by
          rw [hsplit, List.length_append, hlen8]
        omega
      · have hlen9 : d.length = 8 + post.length := by
          rw [hsplit, List.length_append, hlen8]
        have hpost1 : post.length = 1 := by omega
        have hpd : p ∈ d := by
          rw [hsplit, hpostcase]
          exact List.mem_append_right _ (List.mem_cons_self _ _)
        have hw := digit_isWordChar p (hdig p hpd)
        have hnw := hhead p (by rw [hpostcase]; rfl)
        rw [hw] at hnw
        cases hnw
  have hrun : searchAux tryRun79 none d = some d := by
    rw [searchRun79_eq_some_iff]
    refine ⟨[], ⟨[], by simp, ?_, hdig, ?_, ?_⟩, fun pre' d' _ => by simp⟩
    · rcases hlen with h7 | h9
      · exact Or.inl h7
      · exact Or.inr (Or.inr h9)
    · intro c hc
      cases hc
    · intro c hc
      cases hc
  unfold pickId
  rw [hnone]
  dsimp only
  exact hrun

/-- C7: `normalize` applies the confusable mapping to the whole input and
then extracts, from the folded text, the leftmost boundary-delimited run
of exactly 8 digits; when none exists, the leftmost boundary-delimited run
of 7-9 digits; otherwise none.  In particular, whenever the folded text
contains a boundary-delimited 8-digit run, an 8-digit all-digit candidate
is returned. -/
theorem C7_normalize_leftmost (x : List Char) :
    (∀ d, normalizeId x = some d →
      (∃ pre, isExact8Split (normText x) pre d ∧
        ∀ pre' d', isExact8Split (normText x) pre' d' →
          pre.length ≤ pre'.length)
      ∨ ((∀ pre' d', ¬ isExact8Split (normText x) pre' d') ∧
        ∃ pre, isRun79Split (normText x) pre d ∧
          ∀ pre' d', isRun79Split (normText x) pre' d' →
            pre.length ≤ pre'.length))
  ∧ (normalizeId x = none →
      (∀ pre d, ¬ isExact8Split (normText x) pre d) ∧
      (∀ pre d, ¬ isRun79Split (normText x) pre d))
  ∧ ((∃ pre d, isExact8Split (normText x) pre d) →
      ∃ d, normalizeId x = some d ∧ d.length = 8 ∧
        ∀ c ∈ d, c.isDigit = true) := by
  refine ⟨?_, ?_, ?_⟩
  · intro d h
    unfold normalizeId pickId at h
    cases h8 : searchAux tryExact8 none (normText x) with
    | some d0 =>
      rw [h8] at h
      dsimp only at h
      injection h with h
      subst h
      exact Or.inl ((searchExact8_eq_some_iff _ _).mp h8)
    | none =>
      rw [h8] at h
      dsimp only at h
      exact Or.inr ⟨(searchExact8_eq_none_iff _).mp h8,
        (searchRun79_eq_some_iff _ _).mp h⟩
  · intro h
    unfold normalizeId pickId at h
    cases h8 : searchAux tryExact8 none (normText x) with
    | some d0 =>
      rw [h8] at h
      dsimp only at h
      cases h
    | none =>
      rw [h8] at h
      dsimp only at h
      exact ⟨(searchExact8_eq_none_iff _).mp h8,
        (searchRun79_eq_none_iff _).mp h⟩
  · rintro ⟨pre, d, hsplit⟩
    cases h8 : searchAux tryExact8 none (normText x) with
    | none =>
      exact absurd hsplit ((searchExact8_eq_none_iff _).mp h8 pre d)
    | some d0 =>
      obtain ⟨pre0, h0, -⟩ := (searchExact8_eq_some_iff _ _).mp h8
      obtain ⟨post0, -, hlen0, hdig0, -⟩ := h0
      refine ⟨d0, ?_, hlen0, hdig0⟩
      unfold normalizeId pickId
      rw [h8]

/-- Witness for C7: the folded text of `IO345g78` contains the
boundary-delimited 8-digit run `10345978`, which is extracted. -/
theorem C7_normalize_leftmost_witness :
    ∃ d, normalizeId ("IO345g78".toList) = some d ∧ d.length = 8 ∧
      ∀ c ∈ d, c.isDigit = true :=
  (C7_normalize_leftmost ("IO345g78".toList)).2.2
    ⟨[], "10345978".toList,
      ⟨[], by decide, by decide, by decide, by simp, by simp⟩⟩

/-- C8: re-running normalization and extraction on an already-extracted
candidate id returns that candidate unchanged. -/
theorem C8_extraction_idempotent (x d : List Char)
    (h : normalizeId x = some d) : normalizeId d = some d := by
  unfold normalizeId at h ⊢
  have hshape := pickId_some_shape _ _ h
  rw [normText_digits d hshape.1]
  rcases hshape.2 with h7 | h8 | h9
  · exact pickId_digits_79 d hshape.1 (Or.inl h7)
  · exact pickId_digits_8 d hshape.1 h8
  · exact pickId_digits_79 d hshape.1 (Or.inr h9)

/-- Witness for C8 at the fixture OCR string. -/
theorem C8_extraction_idempotent_witness :
    normalizeId ("10345978".toList) = some ("10345978".toList) :=
  C8_extraction_idempotent ("IO345g78".toList) ("10345978".toList) (by decide)
